import Mathlib

/-!
Verification of the streaming chat-completion pipeline of the
document-management application (agent loop `genTextStream` in
`src/server/lib/models/client.ts`, event multiplexer `EventSourceWriter` in
`src/server/utils.ts`, and the HTTP streaming route in
`src/app/api/chat/route.ts`), as a shallow embedding in Lean 4.

The embedding models the asynchronous queue (`superqueue`) as the trace of
values pushed onto it, and each `async` producer/consumer pair as the
sequential execution the single-threaded event loop interleaves them into.
-/

namespace Delty

/-- JSON values, the structured payloads exchanged with tools
(`tc.input`, `tool.execute` results, `{error: String(error)}`). -/
inductive Json where
  | null : Json
  | bool (b : Bool) : Json
  | num (n : Int) : Json
  | str (s : String) : Json
  | arr (elems : List Json) : Json
  | obj (fields : List (String × Json)) : Json

mutual

/-- A minimal model of `JSON.stringify`, used by `genTextStream` to build
the `output` field of tool-result message parts
(`output: JSON.stringify(tr.result)`). -/
def stringify : Json → String
  | .null => "null"
  | .bool true => "true"
  | .bool false => "false"
  | .num n => toString n
  | .str s => "\x22" ++ s ++ "\x22"
  | .arr elems => "[" ++ stringifyElems elems ++ "]"
  | .obj fields => "\x7b" ++ stringifyFields fields ++ "\x7d"

/-- Comma-separated rendering of a JSON array's elements. -/
def stringifyElems : List Json → String
  | [] => ""
  | [j] => stringify j
  | j :: rest => stringify j ++ "," ++ stringifyElems rest

/-- Comma-separated rendering of a JSON object's fields. -/
def stringifyFields : List (String × Json) → String
  | [] => ""
  | [(k, v)] => "\x22" ++ k ++ "\x22:" ++ stringify v
  | (k, v) :: rest => "\x22" ++ k ++ "\x22:" ++ stringify v ++ "," ++ stringifyFields rest

end

/-- Structure `ToolCall` from `client.ts`: `{toolCallId, toolName, args}`. -/
structure ToolCall where
  toolCallId : String
  toolName : String
  args : Json

/-- Structure `ToolResult` from `client.ts`: `{toolCallId, toolName, result}`. -/
structure ToolResult where
  toolCallId : String
  toolName : String
  result : Json

/-- The element type of the outbound stream chunk union
(`StreamChunk = string | ToolCallPart | ToolResultPart` in
`src/server/utils.ts`).  The queue built by `genTextStream` is declared
`Queue<string | ToolCall>`; the `toolResult` variant exists in the wire
union consumed by `addMixedQueue`, which lets us state whether the agent
loop ever pushes a tool result onto its queue. -/
inductive StreamChunk where
  | text (s : String) : StreamChunk
  | toolCall (tc : ToolCall) : StreamChunk
  | toolResult (tr : ToolResult) : StreamChunk

/-- The `toolCallId` of a tool-call chunk, `none` for other chunks. -/
def chunkCallId : StreamChunk → Option String
  | .toolCall tc => some tc.toolCallId
  | _ => none

/-- The `toolCallId` of a tool-result chunk, `none` for other chunks. -/
def chunkResultId : StreamChunk → Option String
  | .toolResult tr => some tr.toolCallId
  | _ => none

/-- The payload of a text chunk, `none` for structured chunks. -/
def chunkText : StreamChunk → Option String
  | .text s => some s
  | _ => none

/-- Message roles of the `ai` SDK's `ModelMessage`. -/
inductive Role where
  | system | user | assistant | tool
deriving DecidableEq

/-- A `tool-call` content part of an assistant message
(`{type: 'tool-call', toolCallId, toolName, input}`). -/
structure ToolCallPart where
  toolCallId : String
  toolName : String
  input : Json

/-- A `tool-result` content part of a tool message
(`{type: 'tool-result', toolCallId, toolName, output}`); `output` is the
`JSON.stringify`-ed tool result. -/
structure ToolResultPart where
  toolCallId : String
  toolName : String
  output : String

/-- Message content: plain text, a list of tool-call parts, or a list of
tool-result parts. -/
inductive MsgContent where
  | text (s : String) : MsgContent
  | toolCallParts (parts : List ToolCallPart) : MsgContent
  | toolResultParts (parts : List ToolResultPart) : MsgContent

/-- Structure `ModelMessage`: a role together with content. -/
structure ModelMessage where
  role : Role
  content : MsgContent

/-- A tool as consulted by the agent loop.  `client.ts` reads only the
`execute` field of a tool (`if (tool && tool.execute)`); `execute` may be
absent, and a present executor either returns a result or throws
(modelled as `Except` with the thrown error's `String(error)` rendering). -/
structure Tool where
  execute : Option (Json → Except String Json)

/-- The tool registry as consulted by `tools?.[tc.toolName]`: a partial
map from tool name to tool; `none` both for an absent `tools` record and
for an unknown name. -/
def ToolRegistry := String → Option Tool

/-- One generation turn of the model gateway: the text chunks produced by
`streamResult.textStream` followed by the tool calls reported by
`await streamResult.toolCalls`. -/
structure Turn where
  textChunks : List String
  toolCalls : List ToolCall

/-- The tool-execution loop of `genTextStream`
(`for (const tc of toolCalls) { ... }`): look each call's name up in the
registry; when the tool exists and has an executor, run it and record
either its result or, when it throws, the synthesized
`{error: String(error)}` payload; calls that do not resolve to a tool
with an executor are skipped and produce no entry. -/
def executeToolCalls (tools : ToolRegistry) : List ToolCall → List ToolResult
  | [] => []
  | tc :: rest =>
    match tools tc.toolName with
    | some tool =>
      match tool.execute with
      | some exec =>
        (match exec tc.args with
         | .ok r => ⟨tc.toolCallId, tc.toolName, r⟩
         | .error e => ⟨tc.toolCallId, tc.toolName, .obj [("error", .str e)]⟩)
        :: executeToolCalls tools rest
      | none => executeToolCalls tools rest
    | none => executeToolCalls tools rest

/-- The assistant message appended after a turn with tool calls:
`{role: 'assistant', content: toolCalls.map(tc => {type: 'tool-call', ...})}`. -/
def assistantToolCallMessage (tcs : List ToolCall) : ModelMessage :=
  ⟨.assistant, .toolCallParts (tcs.map fun tc => ⟨tc.toolCallId, tc.toolName, tc.args⟩)⟩

/-- The tool message appended after executing a turn's tool calls:
`{role: 'tool', content: toolResults.map(tr => {type: 'tool-result', ...,
output: JSON.stringify(tr.result)})}`. -/
def toolResultMessage (trs : List ToolResult) : ModelMessage :=
  ⟨.tool, .toolResultParts (trs.map fun tr => ⟨tr.toolCallId, tr.toolName, stringify tr.result⟩)⟩

/-- The state threaded through `genTextStream`'s `data` closure:
`allText`, `currentMessages`, the trace of values pushed onto the queue,
whether `queue.end()` has run, the number of `streamText` calls issued so
far, and (ghost instrumentation) the list of tool-executing iterations,
each recorded as its `(toolCalls, toolResults)` pair. -/
structure LoopState where
  allText : String
  currentMessages : List ModelMessage
  queueItems : List StreamChunk
  queueEnded : Bool
  generationCalls : Nat
  turns : List (List ToolCall × List ToolResult)

/-- Streaming a turn's text: each chunk is appended to `allText` and
pushed onto the queue (`allText += chunk; queue.push(chunk)`). -/
def pushTextChunks (st : LoopState) : List String → LoopState
  | [] => st
  | c :: rest =>
      pushTextChunks
        { st with allText := st.allText ++ c
                  queueItems := st.queueItems ++ [.text c] } rest

/-- The `while (iteration < maxIterations)` loop of `genTextStream`,
with `fuel = maxIterations - iteration`.  Each pass issues one generation
call (the environment's response to the `n`-th call is `responses n`),
streams its text, and, when the turn has tool calls, pushes the calls onto
the queue, executes them, appends the assistant tool-call message and the
tool-result message to the conversation, and continues; a turn without
tool calls breaks out of the loop. -/
def loopIter (responses : Nat → Turn) (tools : ToolRegistry) :
    Nat → LoopState → LoopState
  | 0, st => st
  | fuel + 1, st =>
    let turn := responses st.generationCalls
    let st1 := pushTextChunks
      { st with generationCalls := st.generationCalls + 1 } turn.textChunks
    if turn.toolCalls.isEmpty then
      st1
    else
      let results := executeToolCalls tools turn.toolCalls
      loopIter responses tools fuel
        { st1 with
            queueItems := st1.queueItems ++ turn.toolCalls.map StreamChunk.toolCall
            currentMessages := st1.currentMessages ++
              [assistantToolCallMessage turn.toolCalls, toolResultMessage results]
            turns := st1.turns ++ [(turn.toolCalls, results)] }

/-- Iteration cap `const maxIterations = 5` in `genTextStream`. -/
def maxIterations : Nat := 5

/-- The `data()` closure of `genTextStream`, run to completion: start from
the caller's messages, run the bounded loop, then `queue.end()`.  The
returned text is the final state's `allText`. -/
def genTextStream (responses : Nat → Turn) (tools : ToolRegistry)
    (messages : List ModelMessage) : LoopState :=
  let final := loopIter responses tools maxIterations
    { allText := ""
      currentMessages := messages
      queueItems := []
      queueEnded := false
      generationCalls := 0
      turns := [] }
  { final with queueEnded := true }

/-! ## Event multiplexer (`EventSourceWriter`, `src/server/utils.ts`) -/

/-- A unit written to the SSE sink by `EventSourceWriter`: either a framed
record `event: <label>\n data: <json-with-index>\n\n`, or the raw terminal
sentinel `event: done\n data: [DONE]\n\n` written by `flush` (the sentinel
carries no index). -/
inductive WriterRecord where
  | record (label : String) (payload : Json) (index : Nat) : WriterRecord
  | doneSentinel : WriterRecord

/-- The `index` carried by a framed record, `none` for the done sentinel. -/
def recordIndex : WriterRecord → Option Nat
  | .record _ _ i => some i
  | .doneSentinel => none

/-- The label names passed to `addMixedQueue`
(`{text, toolCall, toolResult}`). -/
structure MixedLabels where
  text : String
  toolCall : String
  toolResult : String

/-- The mutable state of an `EventSourceWriter`: the `#index` counter, the
trace of units written to its sink, and the `ended` flags of the queues
registered via `addEventQueue`/`addMixedQueue` (`#queues`), as observed by
`flush`. -/
structure WriterState where
  index : Nat
  written : List WriterRecord
  queuesEnded : List Bool
  released : Bool

/-- One emission onto an `EventSourceWriter`, tagged by which method
produced it: a chunk delivered by an `addEventQueue` subscription, a chunk
delivered by an `addMixedQueue` subscription, or a direct `sendEvent`
call. -/
inductive Emission where
  | eventQueueChunk (label : String) (chunk : String) : Emission
  | mixedQueueChunk (labels : MixedLabels) (chunk : StreamChunk) : Emission
  | send (label : String) (data : List (String × Json)) : Emission

/-- Processing one emission: every path reads `this.#index++` exactly once
and writes exactly one framed record.  `addEventQueue` writes
`{chunk, index}` under its label; `addMixedQueue` dispatches on the chunk's
shape (string, `tool-call` part, `tool-result` part — the three cases of
the `StreamChunk` union) and writes one record under the matching label;
`sendEvent` writes `{...data, index}` under its label. -/
def emitOne (st : WriterState) : Emission → WriterState
  | .eventQueueChunk label chunk =>
      { st with index := st.index + 1
                written := st.written ++
                  [.record label (.obj [("chunk", .str chunk)]) st.index] }
  | .mixedQueueChunk labels chunk =>
      match chunk with
      | .text s =>
          { st with index := st.index + 1
                    written := st.written ++
                      [.record labels.text (.obj [("chunk", .str s)]) st.index] }
      | .toolCall tc =>
          { st with index := st.index + 1
                    written := st.written ++
                      [.record labels.toolCall
                        (.obj [("chunk", .obj
                          [("type", .str "tool-call"),
                           ("toolCallId", .str tc.toolCallId),
                           ("toolName", .str tc.toolName),
                           ("input", tc.args)])]) st.index] }
      | .toolResult tr =>
          { st with index := st.index + 1
                    written := st.written ++
                      [.record labels.toolResult
                        (.obj [("chunk", .obj
                          [("type", .str "tool-result"),
                           ("toolCallId", .str tr.toolCallId),
                           ("toolName", .str tr.toolName),
                           ("output", tr.result)])]) st.index] }
  | .send label data =>
      { st with index := st.index + 1
                written := st.written ++
                  [.record label (.obj data) st.index] }

/-- A writer session: the emissions of all registered queues and direct
`sendEvent` calls, applied in emission order (single-writer discipline:
each `mapParallel` subscription runs with concurrency 1 and `#index++` is
atomic on the event loop, so the session is some interleaving — i.e. some
list — of the emissions). -/
def runEmissions (st : WriterState) (ems : List Emission) : WriterState :=
  ems.foldl emitOne st

/-- A fresh `EventSourceWriter` with `queueCount` registered queues, none
of which has ended yet. -/
def initWriter (queueCount : Nat) : WriterState :=
  ⟨0, [], List.replicate queueCount false, false⟩

/-- Method `EventSourceWriter.flush`: if some registered queue has not ended,
throw `'All queues have not ended'`; otherwise write the terminal done
sentinel and release the sink writer. -/
def flush (st : WriterState) : Except String WriterState :=
  if !(st.queuesEnded.all fun q => q) then
    .error "All queues have not ended"
  else
    .ok { st with written := st.written ++ [.doneSentinel], released := true }

/-! ## Chat route (`src/app/api/chat/route.ts`) -/

/-- A row of the `chats` table as read by `getChatById`: only the
`user_id` column is consulted by the route. -/
structure ChatRow where
  user_id : String

/-- The outcome of `getOrCreateChat`: the resolved chat id, and — when a
new chat was created — the title it was created with (`none` when an
existing chat was reused, in which case no title is set). -/
structure ChatOutcome where
  chatId : Int
  createdTitle : Option String

/-- The chat-creation branch of `getOrCreateChat`:
`messages[messages.length - 1]` (a `TypeError` is thrown when `messages`
is empty), then `title = typeof content === 'string' ?
content.slice(0, 50) : 'New Chat'`, then `createChatWithFirstMessage`
(modelled as allocating `newChatId`). -/
def createNewChat (newChatId : Int) (messages : List ModelMessage) :
    Except String ChatOutcome :=
  match messages.getLast? with
  | none => .error "TypeError: Cannot read properties of undefined"
  | some userMessage =>
    let title :=
      match userMessage.content with
      | .text s => s.take 50
      | _ => "New Chat"
    .ok ⟨newChatId, some title⟩

/-- Function `getOrCreateChat`: `if (chatId)` — JavaScript truthiness, so a supplied
`chatId` of `0` takes the creation branch exactly like an absent one.  A
truthy `chatId` is verified against the database (`getChatById`, modelled
as `db`) and its owner; on mismatch the route throws
`'Chat not found or unauthorized'`, otherwise the existing id is returned
with no chat created. -/
def getOrCreateChat (db : Int → Option ChatRow) (newChatId : Int)
    (userId : String) (chatId : Option Int) (messages : List ModelMessage) :
    Except String ChatOutcome :=
  match chatId with
  | some c =>
    if c ≠ 0 then
      match db c with
      | some chat =>
        if chat.user_id = userId then .ok ⟨c, none⟩
        else .error "Chat not found or unauthorized"
      | none => .error "Chat not found or unauthorized"
    else createNewChat newChatId messages
  | none => createNewChat newChatId messages

/-- A record written by the route's `ReadableStream` in
`createStreamingResponse`: a `{type:'text', content, chatId}` data line, a
`{type:'tool_call', toolCall:{id,name,args}, chatId}` data line, or the
`{done:true, chatId}` line written by `sendDoneSignal`.  The route defines
no error record variant. -/
inductive RouteRecord where
  | text (content : String) (chatId : Int) : RouteRecord
  | toolCallNotice (id name : String) (args : Json) (chatId : Int) : RouteRecord
  | doneSignal (chatId : Int) : RouteRecord

/-- Whether a route record is the `sendDoneSignal` record. -/
def RouteRecord.isDone : RouteRecord → Bool
  | .doneSignal _ => true
  | _ => false

/-- How the route stream ends: `controller.close()` after the done signal,
or `controller.error(error)` from the `catch` block. -/
inductive StreamOutcome where
  | closed : StreamOutcome
  | errored (msg : String) : StreamOutcome

/-- The per-chunk branch of the route's `queue.map` consumer: a string
chunk becomes a `text` record, any other chunk is cast to `ToolCall` and
becomes a `tool_call` record (a tool-result chunk, which `genTextStream`
never pushes, would be miscast: its `args` field reads as `undefined`,
rendered here as `Json.null`). -/
def routeRecordOfChunk (chatId : Int) : StreamChunk → RouteRecord
  | .text s => .text s chatId
  | .toolCall tc => .toolCallNotice tc.toolCallId tc.toolName tc.args chatId
  | .toolResult tr => .toolCallNotice tr.toolCallId tr.toolName .null chatId

/-- Start callback of `createStreamingResponse` under the sequential
idealization of its producer/consumer pair: `items` is the trace of chunks
the agent loop pushed onto the queue, delivered by `await queue.map(...)`;
`sessionError` is the exception, if any, raised by the session
(`genTextStream`'s `data()` or the persistence calls).  On success the
records are the per-chunk records followed by exactly one done signal and
the controller is closed; on an exception the `catch` block calls
`controller.error(error)` — no error record and no done signal are
written. -/
def createStreamingResponse (items : List StreamChunk) (chatId : Int)
    (sessionError : Option String) : List RouteRecord × StreamOutcome :=
  let chunkRecords := items.map (routeRecordOfChunk chatId)
  match sessionError with
  | none => (chunkRecords ++ [.doneSignal chatId], .closed)
  | some e => (chunkRecords, .errored e)

/-! ## Basic lemmas about the agent loop -/

/-- Concatenation, in order, of the text payloads of a chunk trace. -/
def concatTexts : List StreamChunk → String
  | [] => ""
  | .text s :: rest => s ++ concatTexts rest
  | _ :: rest => concatTexts rest

theorem concatTexts_append (xs ys : List StreamChunk) :
    concatTexts (xs ++ ys) = concatTexts xs ++ concatTexts ys := by
  induction xs with
  | nil => simp [concatTexts]
  | cons c rest ih =>
    cases c <;> simp [concatTexts, ih, String.append_assoc]

theorem concatTexts_map_toolCall (tcs : List ToolCall) :
    concatTexts (tcs.map StreamChunk.toolCall) = "" := by
  induction tcs with
  | nil => rfl
  | cons tc rest ih => simpa [concatTexts] using ih

theorem pushTextChunks_currentMessages (chunks : List String) (st : LoopState) :
    (pushTextChunks st chunks).currentMessages = st.currentMessages := by
  induction chunks generalizing st with
  | nil => rfl
  | cons c rest ih => simp [pushTextChunks, ih]

theorem pushTextChunks_generationCalls (chunks : List String) (st : LoopState) :
    (pushTextChunks st chunks).generationCalls = st.generationCalls := by
  induction chunks generalizing st with
  | nil => rfl
  | cons c rest ih => simp [pushTextChunks, ih]

theorem pushTextChunks_turns (chunks : List String) (st : LoopState) :
    (pushTextChunks st chunks).turns = st.turns := by
  induction chunks generalizing st with
  | nil => rfl
  | cons c rest ih => simp [pushTextChunks, ih]

theorem pushTextChunks_queueEnded (chunks : List String) (st : LoopState) :
    (pushTextChunks st chunks).queueEnded = st.queueEnded := by
  induction chunks generalizing st with
  | nil => rfl
  | cons c rest ih => simp [pushTextChunks, ih]

theorem pushTextChunks_allText_queue (chunks : List String) (st : LoopState)
    (h : st.allText = concatTexts st.queueItems) :
    (pushTextChunks st chunks).allText =
      concatTexts (pushTextChunks st chunks).queueItems := by
  induction chunks generalizing st with
  | nil => exact h
  | cons c rest ih =>
    apply ih
    simp [h, concatTexts_append, concatTexts, String.append_assoc]

theorem loopIter_allText_queue (responses : Nat → Turn) (tools : ToolRegistry)
    (fuel : Nat) (st : LoopState)
    (h : st.allText = concatTexts st.queueItems) :
    (loopIter responses tools fuel st).allText =
      concatTexts (loopIter responses tools fuel st).queueItems := by
  induction fuel generalizing st with
  | zero => exact h
  | succ n ih =>
    rw [loopIter]
    have h1 := pushTextChunks_allText_queue
      (responses st.generationCalls).textChunks
      { st with generationCalls := st.generationCalls + 1 } h
    by_cases he : (responses st.generationCalls).toolCalls.isEmpty
    · simp only [he, if_true]
      exact h1
    · simp only [he, if_false]
      apply ih
      simp [concatTexts_append, concatTexts_map_toolCall, h1]

/-- Claim C6: the accumulated text returned by the agent loop equals the
concatenation, in emission order, of all text-delta payloads pushed onto
the session's queue. -/
theorem genTextStream_allText_eq_concat_textDeltas
    (responses : Nat → Turn) (tools : ToolRegistry)
    (messages : List ModelMessage) :
    (genTextStream responses tools messages).allText =
      concatTexts (genTextStream responses tools messages).queueItems := by
  unfold genTextStream
  exact loopIter_allText_queue responses tools maxIterations _ rfl

/-! ## Termination and the iteration cap -/

theorem loopIter_generationCalls_le (responses : Nat → Turn)
    (tools : ToolRegistry) (fuel : Nat) (st : LoopState) :
    (loopIter responses tools fuel st).generationCalls ≤
      st.generationCalls + fuel := by
  induction fuel generalizing st with
  | zero => simp [loopIter]
  | succ n ih =>
    rw [loopIter]
    by_cases he : (responses st.generationCalls).toolCalls.isEmpty
    · simp only [he, if_true, pushTextChunks_generationCalls]
      omega
    · simp only [he, if_false]
      refine le_trans (ih _) ?_
      simp only [pushTextChunks_generationCalls]
      omega

theorem loopIter_generationCalls_exact (responses : Nat → Turn)
    (tools : ToolRegistry)
    (h : ∀ n, (responses n).toolCalls ≠ [])
    (fuel : Nat) (st : LoopState) :
    (loopIter responses tools fuel st).generationCalls =
      st.generationCalls + fuel := by
  induction fuel generalizing st with
  | zero => simp [loopIter]
  | succ n ih =>
    rw [loopIter]
    have he : (responses st.generationCalls).toolCalls.isEmpty = false := by
      simpa [List.isEmpty_iff] using h st.generationCalls
    simp only [he, Bool.false_eq_true, if_false]
    rw [ih]
    simp only [pushTextChunks_generationCalls]
    omega

/-- Claim C7: the agent loop issues at most `maxIterations` generation
calls and always ends the queue; when every generation turn requests at
least one tool call, it stops exactly at the cap (and, the loop being a
total function into a state with no error variant, no error record is
emitted). -/
theorem genTextStream_terminates_at_cap (responses : Nat → Turn)
    (tools : ToolRegistry) (messages : List ModelMessage) :
    (genTextStream responses tools messages).generationCalls ≤ maxIterations ∧
    (genTextStream responses tools messages).queueEnded = true ∧
    ((∀ n, (responses n).toolCalls ≠ []) →
      (genTextStream responses tools messages).generationCalls =
        maxIterations) := by
  refine ⟨?_, rfl, ?_⟩
  · unfold genTextStream
    simpa using loopIter_generationCalls_le responses tools maxIterations _
  · intro h
    unfold genTextStream
    simpa using loopIter_generationCalls_exact responses tools h maxIterations _

/-- A mock gateway that requests a tool call on every generation turn. -/
def alwaysToolResponses : Nat → Turn :=
  fun _ => ⟨["thinking"], [⟨"call-loop", "listDocuments", .obj []⟩]⟩

theorem genTextStream_terminates_at_cap_witness :
    (genTextStream alwaysToolResponses (fun _ => none) []).generationCalls =
      maxIterations :=
  (genTextStream_terminates_at_cap alwaysToolResponses (fun _ => none) []).2.2
    (fun n => by simp [alwaysToolResponses])

/-! ## What the agent loop pushes onto its queue -/

theorem filterMap_chunkResultId_map_toolCall (tcs : List ToolCall) :
    (tcs.map StreamChunk.toolCall).filterMap chunkResultId = [] := by
  induction tcs with
  | nil => rfl
  | cons tc rest ih => simp [chunkResultId, ih]

theorem pushTextChunks_resultIds (chunks : List String) (st : LoopState)
    (h : st.queueItems.filterMap chunkResultId = []) :
    (pushTextChunks st chunks).queueItems.filterMap chunkResultId = [] := by
  induction chunks generalizing st with
  | nil => exact h
  | cons c rest ih =>
    apply ih
    simp [h, chunkResultId]

theorem loopIter_resultIds (responses : Nat → Turn) (tools : ToolRegistry)
    (fuel : Nat) (st : LoopState)
    (h : st.queueItems.filterMap chunkResultId = []) :
    (loopIter responses tools fuel st).queueItems.filterMap chunkResultId =
      [] := by
  induction fuel generalizing st with
  | zero => exact h
  | succ n ih =>
    rw [loopIter]
    have h1 := pushTextChunks_resultIds
      (responses st.generationCalls).textChunks
      { st with generationCalls := st.generationCalls + 1 } h
    by_cases he : (responses st.generationCalls).toolCalls.isEmpty
    · simp only [he, if_true]
      exact h1
    · simp only [he, if_false]
      apply ih
      simp [List.filterMap_append, h1, filterMap_chunkResultId_map_toolCall,
        chunkResultId]

/-- Claim C1 (amended): the agent loop never pushes a `ToolCallResult`
onto its outbound queue — the queue carries only text deltas and tool-call
notifications, so no tool call pushed to the queue is ever answered by a
result record on that queue.  Results are recorded only in the working
conversation. -/
theorem genTextStream_queue_has_no_results (responses : Nat → Turn)
    (tools : ToolRegistry) (messages : List ModelMessage) :
    (genTextStream responses tools messages).queueItems.filterMap
      chunkResultId = [] := by
  unfold genTextStream
  exact loopIter_resultIds responses tools maxIterations _ rfl

/-- A two-turn scenario: the model first requests the `listDocuments`
tool, then produces final text. -/
def demoResponses : Nat → Turn := fun n =>
  if n = 0 then ⟨["Listing"], [⟨"call-1", "listDocuments", .obj []⟩]⟩
  else ⟨["You have 2 documents"], []⟩

/-- A registry resolving exactly the `listDocuments` tool, whose executor
succeeds with a document count. -/
def demoTools : ToolRegistry := fun name =>
  if name = "listDocuments" then
    some ⟨some (fun _ => .ok (.obj [("count", .num 2)]))⟩
  else none

/-- The agent-loop run of the two-turn scenario. -/
def demoRun : LoopState := genTextStream demoResponses demoTools []

/-- Claim C1 is false on the code: in the two-turn scenario the tool call
`call-1` is pushed onto the queue, but no `ToolCallResult` record — with
that `callId` or any other — is ever pushed onto the queue before the
stream terminates. -/
theorem genTextStream_orphan_call_on_queue :
    demoRun.queueItems.filterMap chunkCallId = ["call-1"] ∧
    demoRun.queueItems.filterMap chunkResultId = [] :=
  ⟨rfl, rfl⟩

/-! ## Claim C5: index sequence of the event multiplexer -/

theorem emitOne_shape (st : WriterState) (e : Emission) :
    ∃ label payload, emitOne st e =
      { st with index := st.index + 1
                written := st.written ++ [.record label payload st.index] } := by
  cases e with
  | eventQueueChunk label chunk => exact ⟨_, _, rfl⟩
  | mixedQueueChunk labels chunk => cases chunk <;> exact ⟨_, _, rfl⟩
  | send label data => exact ⟨_, _, rfl⟩

theorem runEmissions_indices (ems : List Emission) (st : WriterState) :
    (runEmissions st ems).written.filterMap recordIndex =
      st.written.filterMap recordIndex ++
        List.range' st.index ems.length := by
  induction ems generalizing st with
  | nil => simp [runEmissions]
  | cons e rest ih =>
    obtain ⟨label, payload, hshape⟩ := emitOne_shape st e
    show (runEmissions (emitOne st e) rest).written.filterMap recordIndex = _
    rw [hshape, ih]
    simp [List.range'_succ, recordIndex]

/-- Claim C5: for every session of the event multiplexer — whatever mix of
`addEventQueue` chunks, `addMixedQueue` chunks and `sendEvent` calls it
emits — the `index` values carried by the written records are exactly
`0, 1, ..., n-1`, with no gaps and no repeats. -/
theorem eventSourceWriter_indices_exact (queueCount : Nat)
    (ems : List Emission) :
    (runEmissions (initWriter queueCount) ems).written.filterMap
      recordIndex = List.range ems.length := by
  rw [runEmissions_indices, List.range_eq_range']
  simp [initWriter]

/-! ## Claim C10: flush and the done sentinel -/

/-- Claim C10: `EventSourceWriter.flush` throws whenever some registered
queue has not yet ended, and the terminal done sentinel reaches the sink
only when every registered queue has ended — so the done record can never
precede a still-open queue's records. -/
theorem flush_done_only_after_all_queues_ended (st : WriterState) :
    ((st.queuesEnded.all fun q => q) = false →
      flush st = .error "All queues have not ended") ∧
    ((st.queuesEnded.all fun q => q) = true →
      flush st = .ok { st with written := st.written ++ [.doneSentinel],
                               released := true }) := by
  constructor
  · intro h
    unfold flush
    rw [h]
    rfl
  · intro h
    unfold flush
    rw [h]
    rfl

theorem flush_done_only_after_all_queues_ended_witness :
    flush ⟨2, [], [true, false], false⟩ =
      .error "All queues have not ended" ∧
    flush ⟨2, [], [true, true], false⟩ =
      .ok ⟨2, [.doneSentinel], [true, true], true⟩ :=
  ⟨(flush_done_only_after_all_queues_ended ⟨2, [], [true, false], false⟩).1 rfl,
   (flush_done_only_after_all_queues_ended ⟨2, [], [true, true], false⟩).2 rfl⟩

/-! ## Claim C2: terminal records of the chat route stream -/

theorem filter_isDone_chunkRecords (items : List StreamChunk) (chatId : Int) :
    (items.map (routeRecordOfChunk chatId)).filter RouteRecord.isDone = [] := by
  induction items with
  | nil => rfl
  | cons c rest ih =>
    cases c <;> simp [routeRecordOfChunk, RouteRecord.isDone, ih]

/-- Claim C2 is false on the code: when the session fails mid-turn (here
with `ModelError` after two text chunks were already streamed), the
route's catch block errors the stream controller — no `Error` record and
no terminal `Done` record are written. -/
theorem route_error_path_writes_no_done :
    (createStreamingResponse [.text "Hel", .text "lo"] 7
        (some "ModelError")).1.filter RouteRecord.isDone = [] ∧
    (createStreamingResponse [.text "Hel", .text "lo"] 7
        (some "ModelError")).2 = .errored "ModelError" :=
  ⟨rfl, rfl⟩

/-- Claim C2 (amended): on the success path the route writes the
`{done:true, chatId}` record exactly once, as the last record, and closes
the stream; on an error path it writes no further record at all — neither
an `Error` record (the route defines no such record) nor a `Done` record —
and errors the stream controller instead. -/
theorem route_done_exactly_once_on_success (items : List StreamChunk)
    (chatId : Int) :
    ((createStreamingResponse items chatId none).1.filter RouteRecord.isDone =
        [.doneSignal chatId] ∧
      (createStreamingResponse items chatId none).1.getLast? =
        some (.doneSignal chatId) ∧
      (createStreamingResponse items chatId none).2 = .closed) ∧
    ∀ e, (createStreamingResponse items chatId (some e)).1.filter
        RouteRecord.isDone = [] ∧
      (createStreamingResponse items chatId (some e)).2 = .errored e := by
  refine ⟨⟨?_, ?_, rfl⟩, fun e => ⟨?_, rfl⟩⟩
  · simp [createStreamingResponse, List.filter_append,
      filter_isDone_chunkRecords, RouteRecord.isDone]
  · simp [createStreamingResponse]
  · simpa [createStreamingResponse] using filter_isDone_chunkRecords items chatId

/-! ## Claim C9: chat creation and titles -/

set_option maxRecDepth 8192 in
/-- Claim C9 is false on the code: a request that supplies the chat id `0`
still creates a new chat (with a title from the last message), because
`if (chatId)` tests JavaScript truthiness and `0` is falsy. -/
theorem getOrCreateChat_supplied_zero_creates :
    getOrCreateChat (fun _ => none) 42 "user-1" (some 0)
        [⟨.user, .text "hello world"⟩] =
      .ok ⟨42, some "hello world"⟩ :=
  rfl

/-- Claim C9 (amended): when a nonzero chat id is supplied and resolves to
a chat owned by the requester, no chat is created and no title is set;
when the chat id is absent — or supplied as `0`, which JavaScript
truthiness treats as absent — a new chat is created whose title is the
first 50 characters of the last inbound message's content if that content
is a string, and the literal `New Chat` otherwise. -/
theorem getOrCreateChat_title_rules (db : Int → Option ChatRow)
    (newChatId : Int) (userId : String) :
    (∀ c, c ≠ 0 → ∀ row, db c = some row → row.user_id = userId →
      ∀ messages, getOrCreateChat db newChatId userId (some c) messages =
        .ok ⟨c, none⟩) ∧
    (∀ messages m, messages.getLast? = some m →
      (∀ s, m.content = .text s →
        getOrCreateChat db newChatId userId none messages =
          .ok ⟨newChatId, some (s.take 50)⟩) ∧
      ((∀ s, m.content ≠ .text s) →
        getOrCreateChat db newChatId userId none messages =
          .ok ⟨newChatId, some "New Chat"⟩)) ∧
    (∀ messages, getOrCreateChat db newChatId userId (some 0) messages =
      getOrCreateChat db newChatId userId none messages) := by
  refine ⟨?_, ?_, fun messages => by simp [getOrCreateChat]⟩
  · intro c hc row hrow howner messages
    simp [getOrCreateChat, hc, hrow, howner]
  · intro messages m hm
    constructor
    · intro s hs
      simp [getOrCreateChat, createNewChat, hm, hs]
    · intro hns
      cases hcontent : m.content with
      | text s => exact absurd hcontent (hns s)
      | toolCallParts parts => simp [getOrCreateChat, createNewChat, hm, hcontent]
      | toolResultParts parts => simp [getOrCreateChat, createNewChat, hm, hcontent]

set_option maxRecDepth 8192 in
theorem getOrCreateChat_title_rules_witness :
    getOrCreateChat (fun c => if c = 9 then some ⟨"user-1"⟩ else none)
        42 "user-1" (some 9) [⟨.user, .text "hi"⟩] = .ok ⟨9, none⟩ ∧
    getOrCreateChat (fun _ => none) 42 "user-1" none
        [⟨.user, .text "hello world"⟩] = .ok ⟨42, some "hello world"⟩ :=
  ⟨(getOrCreateChat_title_rules (fun c => if c = 9 then some ⟨"user-1"⟩ else none)
      42 "user-1").1 9 (by decide) ⟨"user-1"⟩ rfl rfl [⟨.user, .text "hi"⟩],
   ((getOrCreateChat_title_rules (fun _ => none) 42 "user-1").2.1
      [⟨.user, .text "hello world"⟩] ⟨.user, .text "hello world"⟩ rfl).1
      "hello world" rfl⟩

/-! ## Tool execution and the conversation invariant -/

/-- The `ToolResult` entry `executeToolCalls` records for a call whose
executor is `ex`: its own result on success, the synthesized
`{error: String(error)}` payload when it throws. -/
def recordedResult (tc : ToolCall) (outcome : Except String Json) : ToolResult :=
  match outcome with
  | .ok r => ⟨tc.toolCallId, tc.toolName, r⟩
  | .error e => ⟨tc.toolCallId, tc.toolName, .obj [("error", .str e)]⟩

theorem executeToolCalls_mem (tools : ToolRegistry) (tcs : List ToolCall)
    (tc : ToolCall) (t : Tool) (ex : Json → Except String Json)
    (htc : tc ∈ tcs) (ht : tools tc.toolName = some t)
    (hex : t.execute = some ex) :
    recordedResult tc (ex tc.args) ∈ executeToolCalls tools tcs := by
  induction tcs with
  | nil => cases htc
  | cons hd rest ih =>
    rcases List.mem_cons.mp htc with rfl | hmem
    · simp only [executeToolCalls, ht, hex]
      cases hres : ex tc.args <;>
        simp [recordedResult, hres, List.mem_cons]
    · cases h1 : tools hd.toolName with
      | none => simpa only [executeToolCalls, h1] using ih hmem
      | some tool =>
        cases h2 : tool.execute with
        | none => simpa only [executeToolCalls, h1, h2] using ih hmem
        | some exec =>
          simp only [executeToolCalls, h1, h2]
          exact List.mem_cons_of_mem _ (ih hmem)

theorem executeToolCalls_resolvable (tools : ToolRegistry)
    (tcs : List ToolCall) (tr : ToolResult)
    (htr : tr ∈ executeToolCalls tools tcs) :
    ∃ t, tools tr.toolName = some t := by
  induction tcs with
  | nil => cases htr
  | cons hd rest ih =>
    rw [executeToolCalls] at htr
    cases h1 : tools hd.toolName with
    | none =>
      simp only [h1] at htr
      exact ih htr
    | some tool =>
      simp only [h1] at htr
      cases h2 : tool.execute with
      | none =>
        simp only [h2] at htr
        exact ih htr
      | some exec =>
        simp only [h2] at htr
        cases hres : exec hd.args <;> simp only [hres] at htr <;>
          rcases List.mem_cons.mp htr with rfl | hmem <;>
          first
            | exact ⟨tool, h1⟩
            | exact ih hmem

/-- The conversation invariant maintained by the loop: every recorded
tool-executing iteration carries exactly the results `executeToolCalls`
produces for its calls, and its tool-role result message has been appended
to the working conversation. -/
def TurnsOk (tools : ToolRegistry) (st : LoopState) : Prop :=
  ∀ p ∈ st.turns, p.2 = executeToolCalls tools p.1 ∧
    toolResultMessage p.2 ∈ st.currentMessages

theorem pushTextChunks_turnsOk (tools : ToolRegistry) (chunks : List String)
    (st : LoopState) (h : TurnsOk tools st) :
    TurnsOk tools (pushTextChunks st chunks) := by
  intro p hp
  rw [pushTextChunks_turns] at hp
  rw [pushTextChunks_currentMessages]
  exact h p hp

theorem loopIter_turnsOk (responses : Nat → Turn) (tools : ToolRegistry)
    (fuel : Nat) (st : LoopState) (h : TurnsOk tools st) :
    TurnsOk tools (loopIter responses tools fuel st) := by
  induction fuel generalizing st with
  | zero => exact h
  | succ n ih =>
    rw [loopIter]
    have h1 := pushTextChunks_turnsOk tools
      (responses st.generationCalls).textChunks
      { st with generationCalls := st.generationCalls + 1 } h
    by_cases he : (responses st.generationCalls).toolCalls.isEmpty
    · simp only [he, if_true]
      exact h1
    · simp only [he, if_false]
      apply ih
      intro p hp
      simp only [List.mem_append, List.mem_singleton] at hp
      rcases hp with hp | rfl
      · obtain ⟨heq, hmsg⟩ := h1 p hp
        exact ⟨heq, by simp only [List.mem_append]; exact Or.inl hmsg⟩
      · refine ⟨rfl, ?_⟩
        simp [List.mem_append]

theorem genTextStream_turnsOk (responses : Nat → Turn) (tools : ToolRegistry)
    (messages : List ModelMessage) :
    TurnsOk tools (genTextStream responses tools messages) := by
  unfold genTextStream
  intro p hp
  exact loopIter_turnsOk responses tools maxIterations _ (fun q hq => by cases hq) p hp

/-! ## Claims C3 and C4: unanswered tool calls -/

/-- A one-tool-call scenario whose tool name resolves to nothing. -/
def unresolvedResponses : Nat → Turn := fun n =>
  if n = 0 then ⟨[], [⟨"call-9", "missingTool", .null⟩]⟩
  else ⟨["done"], []⟩

/-- The empty registry (also the model of an absent `tools` record). -/
def emptyRegistry : ToolRegistry := fun _ => none

/-- The agent-loop run of the unresolvable-tool scenario. -/
def unresolvedRun : LoopState := genTextStream unresolvedResponses emptyRegistry []

/-- The `toolCallId` values of every tool-result part appearing in a
conversation's tool-role messages. -/
def msgResultIds (msgs : List ModelMessage) : List String :=
  msgs.flatMap fun m =>
    match m.content with
    | .toolResultParts parts => parts.map (fun part => part.toolCallId)
    | _ => []

/-- Claim C3 is false on the code: when the requested tool name resolves
to no registered tool, the loop emits the tool-call notification `call-9`
but never any `ToolCallResult` for it — neither on the queue nor in any
tool-role message of the conversation.  There is no NotFound-style error
payload; the call is skipped silently. -/
theorem genTextStream_unresolvable_gets_no_result :
    unresolvedRun.queueItems.filterMap chunkCallId = ["call-9"] ∧
    unresolvedRun.queueItems.filterMap chunkResultId = [] ∧
    msgResultIds unresolvedRun.currentMessages = [] :=
  ⟨rfl, rfl, rfl⟩

/-- Claim C3 (amended): a `ToolCallRequest` whose `toolName` does not
resolve to a registered tool produces no `ToolCallResult` at all — every
result recorded in any iteration belongs to a name that does resolve —
and the lookup failure never throws out of the loop (the loop is a total
function of its inputs). -/
theorem genTextStream_unresolvable_skipped (responses : Nat → Turn)
    (tools : ToolRegistry) (messages : List ModelMessage) (nm : String)
    (hnm : tools nm = none) :
    ∀ p ∈ (genTextStream responses tools messages).turns,
      ∀ tr ∈ p.2, tr.toolName ≠ nm := by
  intro p hp tr htr heq
  obtain ⟨hres, -⟩ := genTextStream_turnsOk responses tools messages p hp
  rw [hres] at htr
  obtain ⟨t, ht⟩ := executeToolCalls_resolvable tools p.1 tr htr
  rw [heq, hnm] at ht
  cases ht

/-- A scenario with one resolvable and one unresolvable tool call. -/
def mixedResponses : Nat → Turn := fun n =>
  if n = 0 then
    ⟨[], [⟨"call-a", "docTool", .null⟩, ⟨"call-b", "missingTool", .null⟩]⟩
  else ⟨["ok"], []⟩

/-- A registry resolving only `docTool`. -/
def partialRegistry : ToolRegistry := fun name =>
  if name = "docTool" then some ⟨some (fun _ => .ok (.str "ok"))⟩ else none

theorem genTextStream_unresolvable_skipped_witness :
    (⟨"call-a", "docTool", Json.str "ok"⟩ : ToolResult).toolName ≠
      "missingTool" :=
  genTextStream_unresolvable_skipped mixedResponses partialRegistry []
    "missingTool" rfl
    ([⟨"call-a", "docTool", .null⟩, ⟨"call-b", "missingTool", .null⟩],
      [⟨"call-a", "docTool", .str "ok"⟩])
    (by
      rw [show (genTextStream mixedResponses partialRegistry []).turns =
        [([⟨"call-a", "docTool", .null⟩, ⟨"call-b", "missingTool", .null⟩],
          [⟨"call-a", "docTool", .str "ok"⟩])] from rfl]
      exact List.mem_singleton.mpr rfl)
    ⟨"call-a", "docTool", .str "ok"⟩ (List.mem_singleton.mpr rfl)

/-- Claim C4 is false on the code: in the unresolvable-tool scenario, the
iteration that appended the request `call-9` to the conversation appended
no matching `ToolCallResult` before the next generation call — the
tool-role message is empty while the assistant message carries the call. -/
theorem genTextStream_call_without_result_before_next_iteration :
    ¬ (∀ p ∈ unresolvedRun.turns, ∀ tc ∈ p.1,
        ∃ tr ∈ p.2, tr.toolCallId = tc.toolCallId) := by
  intro h
  obtain ⟨tr, htr, -⟩ :=
    h ([⟨"call-9", "missingTool", .null⟩], [])
      (by
        rw [show unresolvedRun.turns =
          [([⟨"call-9", "missingTool", .null⟩], [])] from rfl]
        exact List.mem_singleton.mpr rfl)
      ⟨"call-9", "missingTool", .null⟩ (List.mem_singleton.mpr rfl)
  exact (List.not_mem_nil tr) htr

/-- Claim C4 (amended): for every tool-executing iteration, the tool-role
message carrying that iteration's results is appended to the working
conversation before the next generation call, and every
`ToolCallRequest` of the iteration whose name resolves to a tool with an
executor has a matching result (same `callId`) among them; requests that
do not resolve receive no result entry. -/
theorem genTextStream_resolved_calls_answered (responses : Nat → Turn)
    (tools : ToolRegistry) (messages : List ModelMessage) :
    ∀ p ∈ (genTextStream responses tools messages).turns,
      toolResultMessage p.2 ∈
        (genTextStream responses tools messages).currentMessages ∧
      ∀ tc ∈ p.1, ∀ t ex, tools tc.toolName = some t → t.execute = some ex →
        ∃ tr ∈ p.2, tr.toolCallId = tc.toolCallId := by
  intro p hp
  obtain ⟨hres, hmsg⟩ := genTextStream_turnsOk responses tools messages p hp
  refine ⟨hmsg, ?_⟩
  intro tc htc t ex ht hex
  refine ⟨recordedResult tc (ex tc.args), ?_, ?_⟩
  · rw [hres]
    exact executeToolCalls_mem tools p.1 tc t ex htc ht hex
  · cases hout : ex tc.args <;> simp [recordedResult, hout]

theorem genTextStream_resolved_calls_answered_witness :
    ∃ tr ∈ ([⟨"call-1", "listDocuments",
        Json.obj [("count", Json.num 2)]⟩] : List ToolResult),
      tr.toolCallId = "call-1" :=
  ((genTextStream_resolved_calls_answered demoResponses demoTools []
      ([⟨"call-1", "listDocuments", .obj []⟩],
        [⟨"call-1", "listDocuments", .obj [("count", .num 2)]⟩])
      (by
        rw [show (genTextStream demoResponses demoTools []).turns =
          [([⟨"call-1", "listDocuments", .obj []⟩],
            [⟨"call-1", "listDocuments", .obj [("count", .num 2)]⟩])] from rfl]
        exact List.mem_singleton.mpr rfl)).2)
    ⟨"call-1", "listDocuments", .obj []⟩ (List.mem_singleton.mpr rfl)
    ⟨some (fun _ => .ok (.obj [("count", .num 2)]))⟩
    (fun _ => .ok (.obj [("count", .num 2)])) rfl rfl

/-! ## Claim C8: throwing executors are recovered -/

/-- Claim C8: when a resolved tool's executor throws, the loop records a
`ToolCallResult` for that `callId` whose payload is the synthesized
`{error: String(error)}` object, the tool-role message carrying it — with
the stringified error as the call's `output` — is appended to the
conversation used by the next generation turn, and the session still runs
to normal completion (the queue is ended; the throw is never fatal). -/
theorem genTextStream_executor_throw_recovered (responses : Nat → Turn)
    (tools : ToolRegistry) (messages : List ModelMessage) :
    ∀ p ∈ (genTextStream responses tools messages).turns,
      ∀ tc ∈ p.1, ∀ t ex e,
        tools tc.toolName = some t → t.execute = some ex →
        ex tc.args = .error e →
        (⟨tc.toolCallId, tc.toolName,
            .obj [("error", .str e)]⟩ : ToolResult) ∈ p.2 ∧
        toolResultMessage p.2 ∈
          (genTextStream responses tools messages).currentMessages ∧
        (⟨tc.toolCallId, tc.toolName,
            stringify (.obj [("error", .str e)])⟩ : ToolResultPart) ∈
          p.2.map (fun tr =>
            (⟨tr.toolCallId, tr.toolName, stringify tr.result⟩ :
              ToolResultPart)) ∧
        (genTextStream responses tools messages).queueEnded = true := by
  intro p hp tc htc t ex e ht hex herr
  obtain ⟨hres, hmsg⟩ := genTextStream_turnsOk responses tools messages p hp
  have hmem : (⟨tc.toolCallId, tc.toolName,
      .obj [("error", .str e)]⟩ : ToolResult) ∈ p.2 := by
    rw [hres]
    have := executeToolCalls_mem tools p.1 tc t ex htc ht hex
    rwa [herr] at this
  refine ⟨hmem, hmsg, ?_, rfl⟩
  exact List.mem_map_of_mem
    (fun tr => (⟨tr.toolCallId, tr.toolName, stringify tr.result⟩ :
      ToolResultPart)) hmem

/-- A scenario whose single tool call resolves to an executor that
throws. -/
def throwResponses : Nat → Turn := fun n =>
  if n = 0 then ⟨[], [⟨"call-2", "updateDocument", .null⟩]⟩
  else ⟨["recovered"], []⟩

/-- A registry whose `updateDocument` executor always throws `boom`. -/
def throwingRegistry : ToolRegistry := fun name =>
  if name = "updateDocument" then some ⟨some (fun _ => .error "Error: boom")⟩
  else none

theorem genTextStream_executor_throw_recovered_witness :
    (⟨"call-2", "updateDocument",
        Json.obj [("error", Json.str "Error: boom")]⟩ : ToolResult) ∈
      ([⟨"call-2", "updateDocument",
        Json.obj [("error", Json.str "Error: boom")]⟩] : List ToolResult) ∧
    (genTextStream throwResponses throwingRegistry []).queueEnded = true :=
  have h := genTextStream_executor_throw_recovered throwResponses
    throwingRegistry []
    ([⟨"call-2", "updateDocument", .null⟩],
      [⟨"call-2", "updateDocument", .obj [("error", .str "Error: boom")]⟩])
    (by
      rw [show (genTextStream throwResponses throwingRegistry []).turns =
        [([⟨"call-2", "updateDocument", .null⟩],
          [⟨"call-2", "updateDocument",
            .obj [("error", .str "Error: boom")]⟩])] from rfl]
      exact List.mem_singleton.mpr rfl)
    ⟨"call-2", "updateDocument", .null⟩ (List.mem_singleton.mpr rfl)
    ⟨some (fun _ => .error "Error: boom")⟩ (fun _ => .error "Error: boom")
    "Error: boom" rfl rfl rfl
  ⟨h.1, h.2.2.2⟩

end Delty
